import Mathlib

/-!
Verification of the G02_PokerBot repository.

This file shallowly embeds the hand-evaluation engine (`poker_holdem.py`),
the bot decision engine (`src/bot.py`, `src/bot2.py`) and the bet-sizing
module (`src/bet_sizing.py`) in Lean 4, and proves or refutes the frozen
claims about them.

Embedding conventions:
* Python card strings such as `"A♠"` become pairs `(rank, suit) : Char × Char`.
* Python tuples of ints (hand ranks) become `List Nat`, compared by the
  Python tuple order `tupleLt` (lexicographic, a strict prefix is smaller).
* Python `int` chip amounts become `Int`; Python `float` becomes `Rat`
  (the code only ever manipulates floats arising from ints, halves and
  decimal constants, so rational arithmetic is exact here).
* Randomness (`random.shuffle`, `random.uniform`, `random.random`),
  wall-clock time, and the external `treys` evaluator are modelled as
  explicit oracle parameters: the embedded functions are the deterministic
  functions of code *and* oracle answers that the Python code computes.
* In-place mutation of Python dicts is modelled by value-passing; for the
  frame claim about `simulate_action` a small heap model (a list of states
  addressed by index, `copy.deepcopy` = append, field assignment =
  `List.set` at the copy's index) makes the mutation structure explicit.
-/

set_option autoImplicit false

namespace PokerBot

/-! ## Card model (`poker_holdem.py`) -/

/-- A card `"A♠"` is the pair of its rank character and suit character. -/
abbrev Card := Char × Char

/-- `RANKS = '23456789TJQKA'`. -/
def RANKS : List Char := ['2', '3', '4', '5', '6', '7', '8', '9', 'T', 'J', 'Q', 'K', 'A']

/-- `SUITS = '♠♥♦♣'`. -/
def SUITS : List Char := ['♠', '♥', '♦', '♣']

/-- `RANK_VALUE = {r: i + 2 for i, r in enumerate(RANKS)}`. -/
def RANK_VALUE (r : Char) : Nat := RANKS.indexOf r + 2

/-- `create_deck`: the 52-card deck, ranks outer loop, suits inner loop. -/
def create_deck : List Card := RANKS.flatMap (fun r => SUITS.map (fun s => (r, s)))

/-- `rank_to_value(card) = RANK_VALUE[card[0]]`. -/
def rank_to_value (c : Card) : Nat := RANK_VALUE c.1

/-- `is_flush`: all suits equal (`len(set(suits)) == 1`; `dedup` length is the
number of distinct suits). -/
def is_flush (cards : List Card) : Bool := (cards.map Prod.snd).dedup.length == 1

/-! ## Straight detection (`is_straight`, poker_holdem.py lines 67-101) -/

/-- `sorted(set(values), reverse=True)`: distinct values, descending. -/
def dedupSortDesc (l : List Nat) : List Nat := l.dedup.insertionSort (· ≥ ·)

/-- The first loop of `is_straight`: walk adjacent pairs `(vals[i], vals[i+1])`
keeping a `consec` counter, and on the first time `consec` reaches 5 return
`vals[i-3]` (the top of the run) and break.  Reaching `consec >= 5` at pair `i`
forces `i ≥ 3`, so the Python index `i-3` is never negative and truncated
`Nat` subtraction agrees with it.  The fuel starts at `vals.length`, which
bounds the number of loop iterations (`range(len(vals)-1)`). -/
def straightScanGo (vals : List Nat) : Nat → Nat → Nat → Option Nat
  | 0, _, _ => none
  | fuel + 1, i, consec =>
    if i + 1 < vals.length then
      let consec' := if vals.getD i 0 - vals.getD (i + 1) 0 == 1 then consec + 1 else 1
      if consec' ≥ 5 then some (vals.getD (i - 3) 0)
      else straightScanGo vals fuel (i + 1) consec'
    else none

/-- The first loop of `is_straight`, started at `i = 0`, `consec = 1`. -/
def straightScanLoop (vals : List Nat) : Option Nat :=
  straightScanGo vals vals.length 0 1

/-- The second loop of `is_straight`: the first window `vals[i:i+5]` with
`window[0] - window[-1] == 4` (its length is always 5 for
`i in range(len(vals)-4)`, so the `len(window) == 5` conjunct always holds). -/
def straightWindow (vals : List Nat) : Option Nat :=
  if vals.length ≥ 5 then
    (List.range (vals.length - 4)).findSome? (fun i =>
      if vals.getD i 0 - vals.getD (i + 4) 0 == 4 then some (vals.getD i 0) else none)
  else none

/-- The body of `is_straight` after deduplicating and sorting: `d` plays the
role of `sorted(set(values), reverse=True)`.  The wheel test
`{14, 5, 4, 3, 2}.issubset(set(values))` is phrased as membership in `d`,
which holds exactly when membership in the original `values` does. -/
def straightAux (d : List Nat) : Option Nat :=
  let vals := if 14 ∈ d then d ++ [1] else d
  match straightScanLoop vals with
  | some h => some h
  | none =>
    match straightWindow vals with
    | some h => some h
    | none =>
      if vals.length ≥ 5 ∧ ([14, 5, 4, 3, 2] : List Nat).all (· ∈ d) then some 5 else none

/-- `is_straight(values)`.  The Python function returns the pair
`(best_high is not None, best_high)`; we return `Option Nat`
(`some high` ↔ `(True, high)`, `none` ↔ `(False, None)`). -/
def is_straight (values : List Nat) : Option Nat :=
  if values = [] then none
  else straightAux (dedupSortDesc values)

/-! ## `evaluate_5` (poker_holdem.py lines 104-143) -/

/-- `Counter(vals)` as an association list `(value, frequency)`.  `vals` is
always sorted descending when this is used, so `vals.dedup` (distinct values,
in order) lists the `Counter` keys in their Python iteration order. -/
def counterOf (vals : List Nat) : List (Nat × Nat) :=
  vals.dedup.map (fun v => (v, vals.count v))

/-- Descending lexicographic order on `(freq, val)` pairs, as used by
`sorted(..., reverse=True)` on Python 2-tuples. -/
def tupGe (a b : Nat × Nat) : Prop := b.1 < a.1 ∨ (a.1 = b.1 ∧ b.2 ≤ a.2)

instance : DecidableRel tupGe := fun a b => by unfold tupGe; infer_instance

/-- `max(...)` over a list of values; the Python `max` is only applied to
nonempty lists (a kicker always exists), the `0` default is never used. -/
def maxList (l : List Nat) : Nat := l.foldr max 0

/-- The classification chain of `evaluate_5` (the sequence of `if` returns),
abstracted over the values `vals`, `counts_by_freq`, `freqs`, `flush` and
`straight` that the function computes first. -/
def classify (vals : List Nat) (counts_by_freq : List (Nat × Nat)) (freqs : List Nat)
    (flush : Bool) (straight : Option Nat) : List Nat :=
  if straight.isSome && flush then
    [8, straight.getD 0]
  else if freqs.getD 0 0 == 4 then
    let quad := (counts_by_freq.getD 0 (0, 0)).2
    let kicker := maxList (vals.filter (· ≠ quad))
    [7, quad, kicker]
  else if freqs.getD 0 0 == 3 && decide (freqs.length > 1) && freqs.getD 1 0 == 2 then
    let trip := (counts_by_freq.getD 0 (0, 0)).2
    let pair := (counts_by_freq.getD 1 (0, 0)).2
    [6, trip, pair]
  else if flush then
    5 :: vals
  else if straight.isSome then
    [4, straight.getD 0]
  else if freqs.getD 0 0 == 3 then
    let trip := (counts_by_freq.getD 0 (0, 0)).2
    let kickers := (vals.filter (· ≠ trip)).insertionSort (· ≥ ·)
    3 :: trip :: kickers
  else if freqs.getD 0 0 == 2 && decide (freqs.length > 1) && freqs.getD 1 0 == 2 then
    let pair_high := (counts_by_freq.getD 0 (0, 0)).2
    let pair_low := (counts_by_freq.getD 1 (0, 0)).2
    let kicker := maxList (vals.filter (fun v => v ≠ pair_high && v ≠ pair_low))
    [2, pair_high, pair_low, kicker]
  else if freqs.getD 0 0 == 2 then
    let pair := (counts_by_freq.getD 0 (0, 0)).2
    let kickers := (vals.filter (· ≠ pair)).insertionSort (· ≥ ·)
    1 :: pair :: kickers
  else
    0 :: vals

/-- `evaluate_5(cards)`: the rank tuple of a 5-card hand, as a `List Nat`.
The first element is the category 0-8, the rest are the tie-break ranks,
exactly as in the source. -/
def evaluate_5 (cards : List Card) : List Nat :=
  let vals := (cards.map rank_to_value).insertionSort (· ≥ ·)
  let cnts := counterOf vals
  let counts_by_freq := (cnts.map (fun p => (p.2, p.1))).insertionSort tupGe
  let freqs := (cnts.map Prod.snd).insertionSort (· ≥ ·)
  let flush := is_flush cards
  let straight := is_straight vals
  classify vals counts_by_freq freqs flush straight

/-! ## Python tuple comparison and `best_hand_rank` -/

/-- Python's `<` on int tuples: lexicographic, and a strict prefix is
smaller. -/
def tupleLt : List Nat → List Nat → Bool
  | [], [] => false
  | [], _ :: _ => true
  | _ :: _, [] => false
  | a :: as_, b :: bs => a < b || (a == b && tupleLt as_ bs)

/-- `itertools.combinations(l, n)`: all `n`-element sublists of `l`, in the
order Python yields them (those containing the first element first). -/
def combinations {α : Type} : Nat → List α → List (List α)
  | 0, _ => [[]]
  | _ + 1, [] => []
  | n + 1, x :: xs => (combinations n xs).map (x :: ·) ++ combinations (n + 1) xs

/-- One iteration of the `best_hand_rank` loop: `if best is None or rank > best`
(`rank > best` is `tupleLt best rank`). -/
def bhrStep (best : Option (List Nat)) (comb : List Card) : Option (List Nat) :=
  let rank := evaluate_5 comb
  match best with
  | none => some rank
  | some b => if tupleLt b rank then some rank else some b

/-- `best_hand_rank(seven_cards)`: fold over all 5-card combinations keeping
the largest `evaluate_5` tuple.  With fewer than 5 cards the loop never runs
and the Python function returns its `best = None` initializer, modelled by
`none`. -/
def best_hand_rank (seven_cards : List Card) : Option (List Nat) :=
  (combinations 5 seven_cards).foldl bhrStep none

/-! ## The Python tuple order is a strict total order -/

theorem tupleLt_irrefl : ∀ a : List Nat, tupleLt a a = false
  | [] => rfl
  | a :: as_ => by simp [tupleLt, tupleLt_irrefl as_]

theorem tupleLt_trans (a : List Nat) :
    ∀ b c, tupleLt a b = true → tupleLt b c = true → tupleLt a c = true := by
  induction a with
  | nil =>
    intro b c h1 h2
    cases b with
    | nil => simp [tupleLt] at h1
    | cons y ys =>
      cases c with
      | nil => simp [tupleLt] at h2
      | cons z zs => simp [tupleLt]
  | cons x xs ih =>
    intro b c h1 h2
    cases b with
    | nil => simp [tupleLt] at h1
    | cons y ys =>
      cases c with
      | nil => simp [tupleLt] at h2
      | cons z zs =>
        simp only [tupleLt, Bool.or_eq_true, Bool.and_eq_true, decide_eq_true_eq,
          beq_iff_eq] at h1 h2 ⊢
        rcases h1 with h1 | ⟨hxy, h1⟩
        · rcases h2 with h2 | ⟨hyz, h2⟩
          · exact Or.inl (h1.trans h2)
          · exact Or.inl (hyz ▸ h1)
        · rcases h2 with h2 | ⟨hyz, h2⟩
          · exact Or.inl (hxy ▸ h2)
          · exact Or.inr ⟨hxy.trans hyz, ih ys zs h1 h2⟩

theorem tupleLt_total : ∀ a b : List Nat, tupleLt a b = true ∨ tupleLt b a = true ∨ a = b := by
  intro a
  induction a with
  | nil =>
    intro b
    cases b with
    | nil => right; right; rfl
    | cons y ys => left; simp [tupleLt]
  | cons x xs ih =>
    intro b
    cases b with
    | nil => right; left; simp [tupleLt]
    | cons y ys =>
      rcases Nat.lt_trichotomy x y with h | h | h
      · left; simp [tupleLt, h]
      · subst h
        rcases ih ys with h1 | h1 | h1
        · left; simp [tupleLt, h1]
        · right; left; simp [tupleLt, h1]
        · right; right; rw [h1]
      · right; left; simp [tupleLt, h]

theorem tupleLt_false_of_true {a b : List Nat} (h : tupleLt a b = true) :
    tupleLt b a = false := by
  rcases hba : tupleLt b a with _ | _
  · rfl
  · have := tupleLt_trans a b a h hba
    rw [tupleLt_irrefl] at this
    cases this

/-! ## Claim C1: `best_hand_rank` is the maximum over all 5-card subsets -/

theorem combinations_length :
    ∀ {α : Type} (n : Nat) (l : List α), (combinations n l).length = l.length.choose n := by
  intro α n l
  induction l generalizing n with
  | nil => cases n <;> simp [combinations]
  | cons x xs ih =>
    cases n with
    | zero => simp [combinations]
    | succ n =>
      simp only [combinations, List.length_append, List.length_map, ih,
        List.length_cons]
      exact (Nat.choose_succ_succ _ _).symm

theorem combinations_eq_nil_of_short :
    ∀ {α : Type} (n : Nat) (l : List α), l.length < n → combinations n l = [] := by
  intro α n l
  induction l generalizing n with
  | nil =>
    intro h
    cases n with
    | zero => omega
    | succ n => rfl
  | cons x xs ih =>
    intro h
    cases n with
    | zero => omega
    | succ n =>
      have h1 : xs.length < n := by simpa using Nat.lt_of_succ_lt_succ h
      simp [combinations, ih n h1, ih (n + 1) (Nat.lt_succ_of_lt h1)]

/-- The fold of `best_hand_rank`, started from a current best `b`, returns
the maximum of `b` and the evaluations of the remaining combinations. -/
theorem bhr_foldl_spec : ∀ (cs : List (List Card)) (b : List Nat),
    ∃ m, cs.foldl bhrStep (some b) = some m ∧
      (m = b ∨ ∃ c ∈ cs, m = evaluate_5 c) ∧
      tupleLt m b = false ∧
      ∀ c ∈ cs, tupleLt m (evaluate_5 c) = false := by
  intro cs
  induction cs with
  | nil => exact fun b => ⟨b, rfl, Or.inl rfl, tupleLt_irrefl b, by simp⟩
  | cons c cs ih =>
    intro b
    rw [List.foldl_cons]
    rcases hb : tupleLt b (evaluate_5 c) with _ | _
    · have hstep : bhrStep (some b) c = some b := by simp [bhrStep, hb]
      rw [hstep]
      obtain ⟨m, hm, hsrc, hge, hall⟩ := ih b
      refine ⟨m, hm, ?_, hge, ?_⟩
      · rcases hsrc with rfl | ⟨c', hc', rfl⟩
        · exact Or.inl rfl
        · exact Or.inr ⟨c', List.mem_cons_of_mem _ hc', rfl⟩
      · intro c' hc'
        rcases List.mem_cons.mp hc' with rfl | hc'
        · rcases hmc : tupleLt m (evaluate_5 c') with _ | _
          · rfl
          · exfalso
            rcases tupleLt_total (evaluate_5 c') b with h1 | h1 | h1
            · have := tupleLt_trans m _ _ hmc h1
              rw [hge] at this; cases this
            · rw [h1] at hb; cases hb
            · rw [h1] at hmc; rw [hge] at hmc; cases hmc
        · exact hall c' hc'
    · have hstep : bhrStep (some b) c = some (evaluate_5 c) := by simp [bhrStep, hb]
      rw [hstep]
      obtain ⟨m, hm, hsrc, hge, hall⟩ := ih (evaluate_5 c)
      refine ⟨m, hm, ?_, ?_, ?_⟩
      · rcases hsrc with rfl | ⟨c', hc', rfl⟩
        · exact Or.inr ⟨c, List.mem_cons_self c cs, rfl⟩
        · exact Or.inr ⟨c', List.mem_cons_of_mem _ hc', rfl⟩
      · rcases hmb : tupleLt m b with _ | _
        · rfl
        · exfalso
          have := tupleLt_trans m _ _ hmb hb
          rw [hge] at this; cases this
      · intro c' hc'
        rcases List.mem_cons.mp hc' with rfl | hc'
        · exact hge
        · exact hall c' hc'

/-- C1: for 5 to 7 distinct cards, `best_hand_rank` returns the maximum of
`evaluate_5` over all `C(n,5)` five-card combinations of the input: the
returned rank is the evaluation of one combination, is not beaten by the
evaluation of any combination, and the combination list has exactly
`n choose 5` elements (21 for `n = 7`). -/
theorem best_hand_rank_max (l : List Card) (h5 : 5 ≤ l.length) (_h7 : l.length ≤ 7)
    (_hnd : l.Nodup) :
    ∃ m, best_hand_rank l = some m ∧
      (∃ c ∈ combinations 5 l, m = evaluate_5 c) ∧
      (∀ c ∈ combinations 5 l, tupleLt m (evaluate_5 c) = false) ∧
      (combinations 5 l).length = l.length.choose 5 := by
  have hlen : (combinations 5 l).length = l.length.choose 5 := combinations_length 5 l
  have hne : combinations 5 l ≠ [] := by
    intro he
    rw [he] at hlen
    have := Nat.choose_pos h5
    simp at hlen
    omega
  obtain ⟨c, cs, hcons⟩ := List.exists_cons_of_ne_nil hne
  unfold best_hand_rank
  rw [hcons, List.foldl_cons]
  have hstep : bhrStep none c = some (evaluate_5 c) := rfl
  rw [hstep]
  obtain ⟨m, hm, hsrc, _hge, hall⟩ := bhr_foldl_spec cs (evaluate_5 c)
  refine ⟨m, hm, ?_, ?_, hcons ▸ hlen⟩
  · rcases hsrc with rfl | ⟨c', hc', rfl⟩
    · exact ⟨c, List.mem_cons_self c cs, rfl⟩
    · exact ⟨c', List.mem_cons_of_mem _ hc', rfl⟩
  · intro c' hc'
    rcases List.mem_cons.mp hc' with rfl | hc'
    · exact _hge
    · exact hall c' hc'

/-- A sample 7-card input for the C1 witness. -/
def sampleSeven : List Card :=
  [('A', '♠'), ('K', '♠'), ('Q', '♠'), ('J', '♠'), ('T', '♠'), ('2', '♥'), ('7', '♦')]

/-- C1 witness: the theorem instantiated at a concrete 7-card set. -/
theorem best_hand_rank_max_witness :
    ∃ m, best_hand_rank sampleSeven = some m ∧
      (∃ c ∈ combinations 5 sampleSeven, m = evaluate_5 c) ∧
      (∀ c ∈ combinations 5 sampleSeven, tupleLt m (evaluate_5 c) = false) ∧
      (combinations 5 sampleSeven).length = sampleSeven.length.choose 5 :=
  best_hand_rank_max sampleSeven (by decide) (by decide) (by decide)

/-! ## Claim C3: a higher category always wins, whatever the tie-breaks -/

theorem classify_ne_nil (vals : List Nat) (cbf : List (Nat × Nat)) (freqs : List Nat)
    (flush : Bool) (straight : Option Nat) : classify vals cbf freqs flush straight ≠ [] := by
  unfold classify
  split_ifs <;> simp

/-- `evaluate_5` always returns a nonempty tuple whose head is the category:
every branch of the function returns a tuple starting with its category. -/
theorem evaluate_5_ne_nil (cards : List Card) : evaluate_5 cards ≠ [] :=
  classify_ne_nil _ _ _ _ _

/-- C3: if two 5-card hands receive different categories from `evaluate_5`,
the hand of the higher category compares strictly greater in the Python tuple
order, whatever the tie-break ranks are. -/
theorem evaluate_5_category_dominates (A B : List Card)
    (_hA : A.length = 5) (_hB : B.length = 5)
    (h : (evaluate_5 B).headD 0 < (evaluate_5 A).headD 0) :
    tupleLt (evaluate_5 B) (evaluate_5 A) = true := by
  obtain ⟨a, as_, hAe⟩ := List.exists_cons_of_ne_nil (evaluate_5_ne_nil A)
  obtain ⟨b, bs, hBe⟩ := List.exists_cons_of_ne_nil (evaluate_5_ne_nil B)
  rw [hAe, hBe] at h ⊢
  simp only [List.headD_cons] at h
  simp [tupleLt, h]

/-- C3 witness: a 7-high one-pair hand beats an ace-high high-card hand. -/
theorem evaluate_5_category_dominates_witness :
    tupleLt (evaluate_5 [('A', '♠'), ('K', '♥'), ('Q', '♦'), ('J', '♣'), ('9', '♠')])
      (evaluate_5 [('7', '♠'), ('7', '♥'), ('4', '♦'), ('3', '♣'), ('2', '♠')]) = true :=
  evaluate_5_category_dominates
    [('7', '♠'), ('7', '♥'), ('4', '♦'), ('3', '♣'), ('2', '♠')]
    [('A', '♠'), ('K', '♥'), ('Q', '♦'), ('J', '♣'), ('9', '♠')]
    (by decide) (by decide) (by decide)

/-! ## Claim C5: `best_hand_rank` on fewer than 5 cards -/

/-- C5 counterexample: called on 4 cards, `best_hand_rank` silently returns
the `None` initializer (`# type: ignore` in the source) — it does not fail
with an `InvalidInput` error, refuting the claim as stated. -/
theorem best_hand_rank_four_cards_silent :
    best_hand_rank [('A', '♠'), ('K', '♠'), ('Q', '♠'), ('J', '♠')] = none := by decide

/-- C5 (amended): on every input of fewer than 5 cards `best_hand_rank`
silently returns `None` (there is no 5-card combination, so the loop never
runs); no error is raised. -/
theorem best_hand_rank_short_none (l : List Card) (h : l.length < 5) :
    best_hand_rank l = none := by
  unfold best_hand_rank
  rw [combinations_eq_nil_of_short 5 l h]
  rfl

/-- C5 witness for the amended theorem, at a concrete 1-card input. -/
theorem best_hand_rank_short_none_witness :
    ([('A', '♠')] : List Card).length < 5 ∧ best_hand_rank [('A', '♠')] = none :=
  ⟨by decide, best_hand_rank_short_none [('A', '♠')] (by decide)⟩

/-! ## Claim C2: straight recognition (wheel, ace-high, nothing else)

`is_straight` only sees the value list through `sorted(set(values),
reverse=True)` and through membership tests, so its behaviour is determined
by the strictly-decreasing list of distinct values.  For 5-card hands that
list has length 1-5 with entries in `[2, 14]`; we enumerate all 2380 such
lists and check the claimed characterization on each by evaluation, then
transport the result to arbitrary 5-card hands. -/

theorem dedupSortDesc_sorted (l : List Nat) : (dedupSortDesc l).Sorted (· ≥ ·) :=
  List.sorted_insertionSort _ _

theorem dedupSortDesc_nodup (l : List Nat) : (dedupSortDesc l).Nodup :=
  (List.perm_insertionSort _ _).nodup_iff.mpr (List.nodup_dedup l)

theorem mem_dedupSortDesc {a : Nat} {l : List Nat} : a ∈ dedupSortDesc l ↔ a ∈ l := by
  unfold dedupSortDesc
  rw [(List.perm_insertionSort _ _).mem_iff, List.mem_dedup]

theorem dedupSortDesc_perm {l l' : List Nat} (h : l.Perm l') :
    dedupSortDesc l = dedupSortDesc l' :=
  List.eq_of_perm_of_sorted
    (((List.perm_insertionSort _ _).trans h.dedup).trans (List.perm_insertionSort _ _).symm)
    (dedupSortDesc_sorted l) (dedupSortDesc_sorted l')

theorem dedupSortDesc_length_le (l : List Nat) : (dedupSortDesc l).length ≤ l.length := by
  unfold dedupSortDesc
  rw [List.length_insertionSort]
  exact (List.dedup_sublist l).length_le

/-- If deduplication loses nothing, the list is a permutation of its
sorted distinct values. -/
theorem perm_dedupSortDesc_of_length_eq {vs : List Nat}
    (h : (dedupSortDesc vs).length = vs.length) : vs.Perm (dedupSortDesc vs) := by
  have hlen : vs.dedup.length = vs.length := by
    have h2 := List.length_insertionSort (· ≥ ·) vs.dedup
    unfold dedupSortDesc at h
    omega
  have hde : vs.dedup = vs := (List.dedup_sublist vs).eq_of_length hlen
  have h2 : vs.dedup.Perm (dedupSortDesc vs) := (List.perm_insertionSort _ _).symm
  rw [hde] at h2
  exact h2

theorem pairwise_gt_of_sorted_nodup :
    ∀ {l : List Nat}, l.Sorted (· ≥ ·) → l.Nodup → l.Pairwise (· > ·) := by
  intro l hs hn
  induction l with
  | nil => exact List.Pairwise.nil
  | cons x xs ih =>
    rw [List.sorted_cons] at hs
    rw [List.nodup_cons] at hn
    refine List.Pairwise.cons ?_ (ih hs.2 hn.2)
    intro y hy
    exact lt_of_le_of_ne (hs.1 y hy) (fun he => hn.1 (he ▸ hy))

theorem rank_to_value_bounds {c : Card} (h : c.1 ∈ RANKS) :
    2 ≤ rank_to_value c ∧ rank_to_value c ≤ 14 := by
  have hlt : RANKS.indexOf c.1 < RANKS.length := List.indexOf_lt_length.mpr h
  have hlen : RANKS.length = 13 := rfl
  unfold rank_to_value RANK_VALUE
  omega

/-- The value list of a straight with top card `t` (descending). -/
def runList (t : Nat) : List Nat := [t, t - 1, t - 2, t - 3, t - 4]

/-- All strictly-decreasing lists of length at most `k` with entries in
`[2, hi]`.  For `hi = 14`, `k = 5` these are the 2380 possible
`sorted(set(values), reverse=True)` lists of a 5-card hand. -/
def allDec : Nat → Nat → List (List Nat)
  | _, 0 => [[]]
  | hi, k + 1 =>
    [] :: (List.range' 2 (hi - 1)).flatMap (fun v => (allDec (v - 1) k).map (v :: ·))

/-- The claimed characterization of `straightAux` on one distinct-values
list `d`: a straight is reported exactly for the wheel (top card 5) and for
five consecutive values (top card the maximum). -/
def straightOkOn (d : List Nat) : Bool :=
  let isRun := d.length == 5 && d == runList (d.headD 0) && decide (6 ≤ d.headD 0)
  let isWheel := d == [14, 5, 4, 3, 2]
  match straightAux d with
  | some t => (isRun && t == d.headD 0 && !isWheel) || (isWheel && t == 5)
  | none => !isRun && !isWheel

theorem mem_allDec : ∀ (k hi : Nat) (d : List Nat),
    d.Pairwise (· > ·) → (∀ x ∈ d, 2 ≤ x ∧ x ≤ hi) → d.length ≤ k →
    d ∈ allDec hi k := by
  intro k
  induction k with
  | zero =>
    intro hi d _ _ hlen
    have hd : d = [] := List.eq_nil_of_length_eq_zero (Nat.le_zero.mp hlen)
    subst hd
    simp [allDec]
  | succ k ih =>
    intro hi d hpw hbound hlen
    cases d with
    | nil => simp [allDec]
    | cons v rest =>
      simp only [allDec, List.mem_cons, List.mem_flatMap, List.mem_map]
      right
      refine ⟨v, ?_, rest, ?_, rfl⟩
      · rw [List.mem_range'_1]
        have := hbound v (List.mem_cons_self v rest)
        omega
      · apply ih
        · exact hpw.of_cons
        · intro x hx
          have hb := hbound x (List.mem_cons_of_mem _ hx)
          have hlt : v > x := (List.pairwise_cons.mp hpw).1 x hx
          omega
        · simpa using Nat.le_of_succ_le_succ hlen

set_option maxRecDepth 10000 in
/-- Exhaustive check of the straight characterization over all 2380
possible distinct-value lists of a 5-card hand. -/
theorem straightOk_all : (allDec 14 5).all straightOkOn = true := by decide

theorem straightAux_some_shape {d : List Nat} (hq : straightOkOn d = true) {t : Nat}
    (hs : straightAux d = some t) :
    (t = 5 ∧ d = [14, 5, 4, 3, 2]) ∨ (6 ≤ t ∧ d.length = 5 ∧ d = runList t) := by
  unfold straightOkOn at hq
  rw [hs] at hq
  simp only [Bool.or_eq_true, Bool.and_eq_true, Bool.not_eq_true', beq_iff_eq,
    beq_eq_false_iff_ne, ne_eq, decide_eq_true_eq] at hq
  rcases hq with ⟨⟨⟨⟨hlen5, hrun⟩, h6⟩, ht⟩, _⟩ | ⟨hw, ht⟩
  · right
    refine ⟨ht ▸ h6, ?_, ht ▸ hrun⟩
    rw [hrun]
    rfl
  · left
    exact ⟨ht, hw⟩

/-- If the multiset of card values is neither the wheel nor five consecutive
values, `is_straight` reports no straight, whatever the order of the input
value list. -/
theorem is_straight_none_of_noncontiguous {vs vals : List Nat}
    (hperm : vals.Perm vs) (hlen : vs.length = 5)
    (hb : ∀ x ∈ vs, 2 ≤ x ∧ x ≤ 14)
    (hnw : ¬ vs.Perm [14, 5, 4, 3, 2])
    (hnr : ¬ ∃ t, 6 ≤ t ∧ t ≤ 14 ∧ vs.Perm (runList t)) :
    is_straight vals = none := by
  have hvne : ¬ vals = [] := by
    intro he
    rw [he] at hperm
    have := hperm.length_eq
    simp at this
    omega
  unfold is_straight
  rw [if_neg hvne]
  rcases hs : straightAux (dedupSortDesc vals) with _ | t
  · rfl
  · exfalso
    rw [dedupSortDesc_perm hperm] at hs
    have hpw : (dedupSortDesc vs).Pairwise (· > ·) :=
      pairwise_gt_of_sorted_nodup (dedupSortDesc_sorted vs) (dedupSortDesc_nodup vs)
    have hbd : ∀ x ∈ dedupSortDesc vs, 2 ≤ x ∧ x ≤ 14 :=
      fun x hx => hb x (mem_dedupSortDesc.mp hx)
    have hld : (dedupSortDesc vs).length ≤ 5 := hlen ▸ dedupSortDesc_length_le vs
    have hmem : dedupSortDesc vs ∈ allDec 14 5 := mem_allDec 5 14 _ hpw hbd hld
    have hq : straightOkOn (dedupSortDesc vs) = true := by
      have hall := straightOk_all
      rw [List.all_eq_true] at hall
      exact hall _ hmem
    rcases straightAux_some_shape hq hs with ⟨_, hdw⟩ | ⟨h6, hl5, hdr⟩
    · apply hnw
      have hpv : vs.Perm (dedupSortDesc vs) :=
        perm_dedupSortDesc_of_length_eq (by rw [hdw, hlen]; rfl)
      exact hdw ▸ hpv
    · apply hnr
      have hpv : vs.Perm (dedupSortDesc vs) :=
        perm_dedupSortDesc_of_length_eq (by rw [hl5, hlen])
      have ht14 : t ≤ 14 := by
        have : t ∈ dedupSortDesc vs := by
          rw [hdr]
          exact List.mem_cons_self t _
        exact (hbd t this).2
      exact ⟨t, h6, ht14, hdr ▸ hpv⟩

/-- `evaluate_5` is `classify` applied to the values it computes first. -/
theorem evaluate_5_eq_classify (cards : List Card) :
    evaluate_5 cards =
      classify ((cards.map rank_to_value).insertionSort (· ≥ ·))
        (((counterOf ((cards.map rank_to_value).insertionSort (· ≥ ·))).map
            (fun p => (p.2, p.1))).insertionSort tupGe)
        (((counterOf ((cards.map rank_to_value).insertionSort (· ≥ ·))).map
            Prod.snd).insertionSort (· ≥ ·))
        (is_flush cards)
        (is_straight ((cards.map rank_to_value).insertionSort (· ≥ ·))) := rfl

theorem classify_head_none_straight (vals : List Nat) (cbf : List (Nat × Nat))
    (freqs : List Nat) (flush : Bool) :
    (classify vals cbf freqs flush none).headD 99 ≠ 4 ∧
    (classify vals cbf freqs flush none).headD 99 ≠ 8 := by
  unfold classify
  split_ifs <;> simp_all

theorem evaluate_5_head_of_no_straight (cards : List Card)
    (h : is_straight ((cards.map rank_to_value).insertionSort (· ≥ ·)) = none) :
    (evaluate_5 cards).headD 99 ≠ 4 ∧ (evaluate_5 cards).headD 99 ≠ 8 := by
  rw [evaluate_5_eq_classify, h]
  exact classify_head_none_straight _ _ _ _

theorem sorted_desc_eq_of_perm {vs w : List Nat} (h : vs.Perm w)
    (hw : w.Sorted (· ≥ ·)) : vs.insertionSort (· ≥ ·) = w :=
  List.eq_of_perm_of_sorted ((List.perm_insertionSort _ _).trans h)
    (List.sorted_insertionSort _ _) hw

theorem evaluate_5_wheel (cards : List Card)
    (hperm : (cards.map rank_to_value).Perm [14, 5, 4, 3, 2]) :
    evaluate_5 cards = [8, 5] ∨ evaluate_5 cards = [4, 5] := by
  have hvals := sorted_desc_eq_of_perm hperm (by decide)
  rw [evaluate_5_eq_classify, hvals]
  cases hf : is_flush cards
  · right; decide
  · left; decide

theorem evaluate_5_broadway (cards : List Card)
    (hperm : (cards.map rank_to_value).Perm [14, 13, 12, 11, 10]) :
    evaluate_5 cards = [8, 14] ∨ evaluate_5 cards = [4, 14] := by
  have hvals := sorted_desc_eq_of_perm hperm (by decide)
  rw [evaluate_5_eq_classify, hvals]
  cases hf : is_flush cards
  · right; decide
  · left; decide

/-- C2: for every 5-card hand (with canonical ranks), `evaluate_5`
(i) classifies a hand whose values are A-2-3-4-5 as a straight (or straight
flush) with recorded top card 5, (ii) classifies T-J-Q-K-A as a straight (or
straight flush) with top card 14, and (iii) gives no straight and no
straight-flush category to a hand whose value multiset is neither the wheel
nor five consecutive values. -/
theorem evaluate_5_straight_spec (cards : List Card) (h5 : cards.length = 5)
    (hval : ∀ c ∈ cards, c.1 ∈ RANKS) :
    ((cards.map rank_to_value).Perm [14, 5, 4, 3, 2] →
      evaluate_5 cards = [8, 5] ∨ evaluate_5 cards = [4, 5]) ∧
    ((cards.map rank_to_value).Perm [14, 13, 12, 11, 10] →
      evaluate_5 cards = [8, 14] ∨ evaluate_5 cards = [4, 14]) ∧
    (¬ (cards.map rank_to_value).Perm [14, 5, 4, 3, 2] →
     ¬ (∃ t, 6 ≤ t ∧ t ≤ 14 ∧ (cards.map rank_to_value).Perm (runList t)) →
      (evaluate_5 cards).headD 99 ≠ 4 ∧ (evaluate_5 cards).headD 99 ≠ 8) := by
  refine ⟨evaluate_5_wheel cards, evaluate_5_broadway cards, ?_⟩
  intro hnw hnr
  apply evaluate_5_head_of_no_straight
  apply is_straight_none_of_noncontiguous (List.perm_insertionSort _ _) ?_ ?_ hnw hnr
  · rw [List.length_map]
    exact h5
  · intro x hx
    obtain ⟨c, hc, rfl⟩ := List.mem_map.mp hx
    exact rank_to_value_bounds (hval c hc)

/-- C2 witness: the theorem instantiated at a concrete wheel hand. -/
theorem evaluate_5_straight_spec_witness :
    (((([('A', '♠'), ('5', '♥'), ('4', '♦'), ('3', '♣'), ('2', '♠')] : List Card)).map
        rank_to_value).Perm [14, 5, 4, 3, 2] →
      evaluate_5 [('A', '♠'), ('5', '♥'), ('4', '♦'), ('3', '♣'), ('2', '♠')] = [8, 5] ∨
      evaluate_5 [('A', '♠'), ('5', '♥'), ('4', '♦'), ('3', '♣'), ('2', '♠')] = [4, 5]) ∧
    (((([('A', '♠'), ('5', '♥'), ('4', '♦'), ('3', '♣'), ('2', '♠')] : List Card)).map
        rank_to_value).Perm [14, 13, 12, 11, 10] →
      evaluate_5 [('A', '♠'), ('5', '♥'), ('4', '♦'), ('3', '♣'), ('2', '♠')] = [8, 14] ∨
      evaluate_5 [('A', '♠'), ('5', '♥'), ('4', '♦'), ('3', '♣'), ('2', '♠')] = [4, 14]) ∧
    (¬ (((([('A', '♠'), ('5', '♥'), ('4', '♦'), ('3', '♣'), ('2', '♠')] : List Card)).map
          rank_to_value).Perm [14, 5, 4, 3, 2]) →
     ¬ (∃ t, 6 ≤ t ∧ t ≤ 14 ∧
          ((([('A', '♠'), ('5', '♥'), ('4', '♦'), ('3', '♣'), ('2', '♠')] : List Card)).map
            rank_to_value).Perm (runList t)) →
      (evaluate_5 [('A', '♠'), ('5', '♥'), ('4', '♦'), ('3', '♣'), ('2', '♠')]).headD 99 ≠ 4 ∧
      (evaluate_5 [('A', '♠'), ('5', '♥'), ('4', '♦'), ('3', '♣'), ('2', '♠')]).headD 99 ≠ 8) :=
  evaluate_5_straight_spec [('A', '♠'), ('5', '♥'), ('4', '♦'), ('3', '♣'), ('2', '♠')]
    (by decide) (by decide)

/-! ## The decision engine of `src/bot.py` and `src/bot2.py`

Cards on this side of the code base are `treys` card integers, modelled as
opaque `Nat`s.  The `state` dictionaries become structures; the strings
`"fold" | "check" | "call" | "raise"` and `"bot" | "opp"` become the
inductives `Action` and `Actor`. -/

/-- The action strings of the bot modules. -/
inductive Action
  | fold
  | check
  | call
  | raise
  deriving DecidableEq, Repr

/-- The actor strings `"bot"` / `"opp"`. -/
inductive Actor
  | bot
  | opp
  deriving DecidableEq, Repr

namespace Bot

/-- The `state` dictionary of `src/bot.py` (the keys built by
`bot_decision_wrapper`, plus the optional `dynamic_raise`).  `winner` is
`none` while the key is absent.  `dynamic_raise` is `none` when the key is
absent; the Python truthiness test also rejects a stored `0`. -/
structure StB where
  bot_hand : List Nat
  community : List Nat
  pot : Int
  current_bet : Int
  bot_money : Int
  opp_money : Int
  bot_current_bet : Int
  raise_amount : Int
  terminal : Bool
  bot_is_small_blind : Bool
  dynamic_raise : Option Int
  winner : Option Actor
  deriving DecidableEq, Repr

instance : Inhabited StB :=
  ⟨{ bot_hand := [], community := [], pot := 0, current_bet := 0, bot_money := 0,
     opp_money := 0, bot_current_bet := 0, raise_amount := 0, terminal := false,
     bot_is_small_blind := false, dynamic_raise := none, winner := none }⟩

/-- `get_possible_actions` (bot.py lines 131-143). -/
def get_possible_actions (state : StB) : List Action :=
  if state.current_bet = 0 then [.check, .raise] else [.fold, .call, .raise]

/-- `simulate_action` (bot.py lines 150-205), value-level form: the
`copy.deepcopy` plus in-place updates of the copy amount to a record update
(see `simulate_action_heap` for the mutation-explicit form).  The `call` and
`raise` branches update the bot's fields regardless of `actor`, exactly as
in the source (only `fold` inspects `actor`); `call` subtracts the full
`to_call` with no clamp against `bot_money`. -/
def simulate_action (state : StB) (action : Action) (actor : Actor) : StB :=
  let s := state
  match action with
  | .fold =>
    { s with terminal := true, winner := some (if actor = .bot then Actor.opp else Actor.bot) }
  | .check => s
  | .call =>
    let to_call := max 0 (s.current_bet - s.bot_current_bet)
    { s with bot_money := s.bot_money - to_call,
             bot_current_bet := s.bot_current_bet + to_call,
             pot := s.pot + to_call }
  | .raise =>
    let raise_amt :=
      match s.dynamic_raise with
      | some d => if d ≠ 0 then d else s.raise_amount
      | none => s.raise_amount
    let new_total := s.current_bet + raise_amt
    let diff := max 0 (new_total - s.bot_current_bet)
    { s with bot_money := s.bot_money - diff,
             bot_current_bet := s.bot_current_bet + diff,
             pot := s.pot + diff,
             current_bet := new_total }

end Bot

namespace Bot2

/-- `DEFAULT_RAISE` (bot2.py). -/
def DEFAULT_RAISE : Int := 5

/-- The `state` dictionary of `src/bot2.py` (keys listed in its
`get_possible_actions` docstring plus `raise_amount`, `terminal`, `winner`).
`raise_amount` is optional: the code reads it with
`s.get('raise_amount', DEFAULT_RAISE)`. -/
structure StB2 where
  bot_hand : List Nat
  community : List Nat
  pot : Int
  current_bet : Int
  bot_money : Int
  opp_money : Int
  bot_current_bet : Int
  opp_current_bet : Int
  raise_amount : Option Int
  terminal : Bool
  winner : Option Actor
  deriving DecidableEq, Repr

instance : Inhabited StB2 :=
  ⟨{ bot_hand := [], community := [], pot := 0, current_bet := 0, bot_money := 0,
     opp_money := 0, bot_current_bet := 0, opp_current_bet := 0, raise_amount := none,
     terminal := false, winner := none }⟩

/-- `simulate_action` (bot2.py lines 93-146), value-level form.  Here both
`call` and `raise` clamp the transfer by the actor's remaining stack
(`min(to_call, money)` / `min(diff, money)`), and `raise` updates
`current_bet` to `max(current_bet, new_total)`. -/
def simulate_action (state : StB2) (action : Action) (actor : Actor) : StB2 :=
  let s := state
  let raise_amt := s.raise_amount.getD DEFAULT_RAISE
  match action with
  | .fold =>
    { s with terminal := true, winner := some (if actor = .bot then Actor.opp else Actor.bot) }
  | .check => s
  | .call =>
    let to_call := max 0 (s.current_bet -
      (if actor = .bot then s.bot_current_bet else s.opp_current_bet))
    if actor = .bot then
      let taken := min to_call s.bot_money
      { s with bot_money := s.bot_money - taken,
               bot_current_bet := s.bot_current_bet + taken,
               pot := s.pot + taken }
    else
      let taken := min to_call s.opp_money
      { s with opp_money := s.opp_money - taken,
               opp_current_bet := s.opp_current_bet + taken,
               pot := s.pot + taken }
  | .raise =>
    let new_total := s.current_bet + raise_amt
    if actor = .bot then
      let diff := min (max 0 (new_total - s.bot_current_bet)) s.bot_money
      { s with bot_money := s.bot_money - diff,
               bot_current_bet := s.bot_current_bet + diff,
               pot := s.pot + diff,
               current_bet := max s.current_bet new_total }
    else
      let diff := min (max 0 (new_total - s.opp_current_bet)) s.opp_money
      { s with opp_money := s.opp_money - diff,
               opp_current_bet := s.opp_current_bet + diff,
               pot := s.pot + diff,
               current_bet := max s.current_bet new_total }

end Bot2

namespace Bot

/-- `simulate_action` (bot.py), heap-level form, making the mutation
structure of the source explicit: states live in a heap (a list addressed by
index), `s = copy.deepcopy(state)` allocates a copy of the state at address
`i` at the fresh address `j`, and each Python field assignment `s[...] = ...`
is a `List.set` at `j`.  Returns the heap and the address of the result. -/
def simulate_action_heap (h : List StB) (i : Nat) (action : Action) (actor : Actor) :
    List StB × Nat :=
  let j := h.length
  let h1 := h ++ [h.getD i default]
  match action with
  | .fold =>
    let h2 := h1.set j { h1.getD j default with terminal := true }
    let h3 := h2.set j { h2.getD j default with
      winner := some (if actor = .bot then Actor.opp else Actor.bot) }
    (h3, j)
  | .check => (h1, j)
  | .call =>
    let s := h1.getD j default
    let to_call := max 0 (s.current_bet - s.bot_current_bet)
    let h2 := h1.set j { h1.getD j default with
      bot_money := (h1.getD j default).bot_money - to_call }
    let h3 := h2.set j { h2.getD j default with
      bot_current_bet := (h2.getD j default).bot_current_bet + to_call }
    let h4 := h3.set j { h3.getD j default with
      pot := (h3.getD j default).pot + to_call }
    (h4, j)
  | .raise =>
    let s := h1.getD j default
    let raise_amt :=
      match s.dynamic_raise with
      | some d => if d ≠ 0 then d else s.raise_amount
      | none => s.raise_amount
    let new_total := s.current_bet + raise_amt
    let diff := max 0 (new_total - s.bot_current_bet)
    let h2 := h1.set j { h1.getD j default with
      bot_money := (h1.getD j default).bot_money - diff }
    let h3 := h2.set j { h2.getD j default with
      bot_current_bet := (h2.getD j default).bot_current_bet + diff }
    let h4 := h3.set j { h3.getD j default with
      pot := (h3.getD j default).pot + diff }
    let h5 := h4.set j { h4.getD j default with current_bet := new_total }
    (h5, j)

end Bot

namespace Bot2

/-- `simulate_action` (bot2.py), heap-level form (same conventions as the
bot.py one). -/
def simulate_action_heap (h : List StB2) (i : Nat) (action : Action) (actor : Actor) :
    List StB2 × Nat :=
  let j := h.length
  let h1 := h ++ [h.getD i default]
  let raise_amt := (h1.getD j default).raise_amount.getD DEFAULT_RAISE
  match action with
  | .fold =>
    let h2 := h1.set j { h1.getD j default with terminal := true }
    let h3 := h2.set j { h2.getD j default with
      winner := some (if actor = .bot then Actor.opp else Actor.bot) }
    (h3, j)
  | .check => (h1, j)
  | .call =>
    let s := h1.getD j default
    let to_call := max 0 (s.current_bet -
      (if actor = .bot then s.bot_current_bet else s.opp_current_bet))
    if actor = .bot then
      let taken := min to_call s.bot_money
      let h2 := h1.set j { h1.getD j default with
        bot_money := (h1.getD j default).bot_money - taken }
      let h3 := h2.set j { h2.getD j default with
        bot_current_bet := (h2.getD j default).bot_current_bet + taken }
      let h4 := h3.set j { h3.getD j default with
        pot := (h3.getD j default).pot + taken }
      (h4, j)
    else
      let taken := min to_call s.opp_money
      let h2 := h1.set j { h1.getD j default with
        opp_money := (h1.getD j default).opp_money - taken }
      let h3 := h2.set j { h2.getD j default with
        opp_current_bet := (h2.getD j default).opp_current_bet + taken }
      let h4 := h3.set j { h3.getD j default with
        pot := (h3.getD j default).pot + taken }
      (h4, j)
  | .raise =>
    let s := h1.getD j default
    let new_total := s.current_bet + raise_amt
    if actor = .bot then
      let diff := min (max 0 (new_total - s.bot_current_bet)) s.bot_money
      let h2 := h1.set j { h1.getD j default with
        bot_money := (h1.getD j default).bot_money - diff }
      let h3 := h2.set j { h2.getD j default with
        bot_current_bet := (h2.getD j default).bot_current_bet + diff }
      let h4 := h3.set j { h3.getD j default with
        pot := (h3.getD j default).pot + diff }
      let h5 := h4.set j { h4.getD j default with
        current_bet := max (h4.getD j default).current_bet new_total }
      (h5, j)
    else
      let diff := min (max 0 (new_total - s.opp_current_bet)) s.opp_money
      let h2 := h1.set j { h1.getD j default with
        opp_money := (h1.getD j default).opp_money - diff }
      let h3 := h2.set j { h2.getD j default with
        opp_current_bet := (h2.getD j default).opp_current_bet + diff }
      let h4 := h3.set j { h3.getD j default with
        pot := (h3.getD j default).pot + diff }
      let h5 := h4.set j { h4.getD j default with
        current_bet := max (h4.getD j default).current_bet new_total }
      (h5, j)

end Bot2

/-! ## Claim C7: `simulate_action` never mutates pre-existing states -/

/-- A state in which the bot cannot cover the outstanding bet (used by the
C4 and C7 witnesses). -/
def c4state : Bot.StB :=
  { bot_hand := [], community := [], pot := 0, current_bet := 10, bot_money := 3,
    opp_money := 100, bot_current_bet := 0, raise_amount := 5, terminal := false,
    bot_is_small_blind := false, dynamic_raise := none, winner := none }

/-- C7: for each of the four actions, both `simulate_action` implementations
(bot.py and bot2.py) leave every pre-existing heap cell unchanged — in
particular the input state at address `i` — because the only writes are to
the freshly allocated deep copy.  Sibling hypotheses explored from the same
parent state therefore never observe each other's mutations. -/
theorem simulate_action_pure_frame
    (h1 : List Bot.StB) (h2 : List Bot2.StB2) (i1 i2 k1 k2 : Nat)
    (hk1 : k1 < h1.length) (hk2 : k2 < h2.length) (action : Action) (actor : Actor) :
    (Bot.simulate_action_heap h1 i1 action actor).1[k1]? = h1[k1]? ∧
    (Bot2.simulate_action_heap h2 i2 action actor).1[k2]? = h2[k2]? := by
  have hne1 : h1.length ≠ k1 := by omega
  have hne2 : h2.length ≠ k2 := by omega
  constructor
  · cases action
    case check =>
      simp only [Bot.simulate_action_heap]
      exact List.getElem?_append_left hk1
    all_goals
      simp only [Bot.simulate_action_heap]
      simp only [List.getElem?_set_ne hne1]
      exact List.getElem?_append_left hk1
  · cases action
    case check =>
      simp only [Bot2.simulate_action_heap]
      exact List.getElem?_append_left hk2
    case fold =>
      simp only [Bot2.simulate_action_heap]
      simp only [List.getElem?_set_ne hne2]
      exact List.getElem?_append_left hk2
    all_goals
      simp only [Bot2.simulate_action_heap]
      split_ifs <;> simp only [List.getElem?_set_ne hne2] <;>
        exact List.getElem?_append_left hk2

/-- C7 witness: a concrete one-state heap, `call` by the bot. -/
theorem simulate_action_pure_frame_witness :
    (Bot.simulate_action_heap [c4state] 0 .call .bot).1[0]? = [c4state][0]? ∧
    (Bot2.simulate_action_heap [(default : Bot2.StB2)] 0 .call .bot).1[0]?
      = [(default : Bot2.StB2)][0]? :=
  simulate_action_pure_frame [c4state] [(default : Bot2.StB2)] 0 0 0 0
    Nat.one_pos Nat.one_pos .call .bot

/-! ## Claim C4: the `call` transition -/

/-- C4 counterexample: `bot.py`'s `simulate_action` on `call` subtracts the
full `toCall = 10` from a stack of 3, leaving `-7`; the transfer claimed
(`min(toCall, bot_money) = 3`) would have left the stack at 0, and the stack
does become negative, refuting the claim for `bot.py`. -/
theorem simulate_action_call_negative :
    (Bot.simulate_action c4state .call .bot).bot_money = -7 ∧
    (Bot.simulate_action c4state .call .bot).bot_money < 0 ∧
    c4state.bot_money -
      min (max 0 (c4state.current_bet - c4state.bot_current_bet)) c4state.bot_money = 0 := by
  refine ⟨rfl, by decide, by decide⟩

/-- C4 (amended): in `bot2.py`, `simulate_action` on `call` computes
`toCall = max(0, current_bet - actor's committed bet)` and transfers exactly
`min(toCall, actor's stack)` from the stack to the committed amount and the
pot, so a non-negative stack stays non-negative.  In `bot.py` the transfer is
the unclamped `toCall` and the stack can go negative (see the
counterexample). -/
theorem simulate_action2_call_spec (st : Bot2.StB2)
    (_hb : 0 ≤ st.bot_money) (_ho : 0 ≤ st.opp_money) :
    ((Bot2.simulate_action st .call .bot).bot_money
        = st.bot_money - min (max 0 (st.current_bet - st.bot_current_bet)) st.bot_money ∧
      (Bot2.simulate_action st .call .bot).bot_current_bet
        = st.bot_current_bet + min (max 0 (st.current_bet - st.bot_current_bet)) st.bot_money ∧
      (Bot2.simulate_action st .call .bot).pot
        = st.pot + min (max 0 (st.current_bet - st.bot_current_bet)) st.bot_money ∧
      0 ≤ (Bot2.simulate_action st .call .bot).bot_money) ∧
    ((Bot2.simulate_action st .call .opp).opp_money
        = st.opp_money - min (max 0 (st.current_bet - st.opp_current_bet)) st.opp_money ∧
      (Bot2.simulate_action st .call .opp).opp_current_bet
        = st.opp_current_bet + min (max 0 (st.current_bet - st.opp_current_bet)) st.opp_money ∧
      (Bot2.simulate_action st .call .opp).pot
        = st.pot + min (max 0 (st.current_bet - st.opp_current_bet)) st.opp_money ∧
      0 ≤ (Bot2.simulate_action st .call .opp).opp_money) := by
  unfold Bot2.simulate_action
  simp only []
  refine ⟨⟨rfl, rfl, rfl, ?_⟩, ⟨rfl, rfl, rfl, ?_⟩⟩ <;> simp

/-- C4 witness for the amended theorem, at a concrete state. -/
theorem simulate_action2_call_spec_witness :
    ((Bot2.simulate_action
        { bot_hand := [], community := [], pot := 7, current_bet := 10, bot_money := 3,
          opp_money := 20, bot_current_bet := 0, opp_current_bet := 10,
          raise_amount := none, terminal := false, winner := none } .call .bot).bot_money
        = 3 - min (max 0 ((10 : Int) - 0)) 3 ∧
      (Bot2.simulate_action
        { bot_hand := [], community := [], pot := 7, current_bet := 10, bot_money := 3,
          opp_money := 20, bot_current_bet := 0, opp_current_bet := 10,
          raise_amount := none, terminal := false, winner := none } .call .bot).bot_current_bet
        = 0 + min (max 0 ((10 : Int) - 0)) 3 ∧
      (Bot2.simulate_action
        { bot_hand := [], community := [], pot := 7, current_bet := 10, bot_money := 3,
          opp_money := 20, bot_current_bet := 0, opp_current_bet := 10,
          raise_amount := none, terminal := false, winner := none } .call .bot).pot
        = 7 + min (max 0 ((10 : Int) - 0)) 3 ∧
      0 ≤ (Bot2.simulate_action
        { bot_hand := [], community := [], pot := 7, current_bet := 10, bot_money := 3,
          opp_money := 20, bot_current_bet := 0, opp_current_bet := 10,
          raise_amount := none, terminal := false, winner := none } .call .bot).bot_money) ∧
    ((Bot2.simulate_action
        { bot_hand := [], community := [], pot := 7, current_bet := 10, bot_money := 3,
          opp_money := 20, bot_current_bet := 0, opp_current_bet := 10,
          raise_amount := none, terminal := false, winner := none } .call .opp).opp_money
        = 20 - min (max 0 ((10 : Int) - 10)) 20 ∧
      (Bot2.simulate_action
        { bot_hand := [], community := [], pot := 7, current_bet := 10, bot_money := 3,
          opp_money := 20, bot_current_bet := 0, opp_current_bet := 10,
          raise_amount := none, terminal := false, winner := none } .call .opp).opp_current_bet
        = 10 + min (max 0 ((10 : Int) - 10)) 20 ∧
      (Bot2.simulate_action
        { bot_hand := [], community := [], pot := 7, current_bet := 10, bot_money := 3,
          opp_money := 20, bot_current_bet := 0, opp_current_bet := 10,
          raise_amount := none, terminal := false, winner := none } .call .opp).pot
        = 7 + min (max 0 ((10 : Int) - 10)) 20 ∧
      0 ≤ (Bot2.simulate_action
        { bot_hand := [], community := [], pot := 7, current_bet := 10, bot_money := 3,
          opp_money := 20, bot_current_bet := 0, opp_current_bet := 10,
          raise_amount := none, terminal := false, winner := none } .call .opp).opp_money) :=
  simulate_action2_call_spec
    { bot_hand := [], community := [], pot := 7, current_bet := 10, bot_money := 3,
      opp_money := 20, bot_current_bet := 0, opp_current_bet := 10,
      raise_amount := none, terminal := false, winner := none }
    (by decide) (by decide)

/-! ## The decision logic of `src/bot.py` (constants, state value, search) -/

/-- Python `int()` on a float: truncation toward zero. -/
def pyInt (q : Rat) : Int := if 0 ≤ q then ⌊q⌋ else ⌈q⌉

namespace Bot

/-! Constants from `src/constants.py` (only those the embedded functions
read).  `WEIGHT_BANKROLL` abbreviates the source name
`WEIGHT_BANKROLL_RATIO`. -/

def DEFAULT_RAISE_AMOUNT : Int := 5
def WEIGHT_WIN_PROB : Rat := 0.68
def WEIGHT_EXPECTED_VALUE : Rat := 0.25
def WEIGHT_BANKROLL : Rat := 0.07
def RISK_PENALTY_LARGE_POT : Rat := 0.15
def LARGE_POT_THRESHOLD : Int := 30
def LOW_WIN_PROB_THRESHOLD : Rat := 0.45
def MC_SIMS_MIN : Int := 80
def MC_SIMS_MAX : Int := 350
def MC_SIMS_DEPTH_MULTIPLIER : Rat := 0.4
def BLUFF_MIN_WIN_PROB : Rat := 0.30
def BLUFF_MAX_WIN_PROB : Rat := 0.45
def BLUFF_BASE_FREQUENCY : Rat := 0.12
def BLUFF_LATE_POSITION_BONUS : Rat := 0.03
def BLUFF_LARGE_POT_PENALTY : Rat := 0.05
def BLUFF_LARGE_POT_SIZE : Int := 30

/-- The signature of `monte_carlo_win_prob(bot_hand, community, n_sim)` as
seen by the decision functions: its Monte Carlo sampling makes it an oracle
here (the estimator itself is embedded separately for claim C10). -/
abbrev WinProbOracle := List Nat → List Nat → Int → Rat

/-- `evaluate_state` (bot.py lines 212-254).  Note `max(ev_call, ev_raise)`
is divided by `pot + 1` in exact rational arithmetic (Python float division;
a `pot` of `-1` would raise `ZeroDivisionError` in Python and yields `0`
here — no claim touches that state). -/
def evaluate_state (o : WinProbOracle) (state : StB) (mc_sims : Int) : Rat :=
  let win_prob := o state.bot_hand state.community mc_sims
  let to_call : Int := max 0 (state.current_bet - state.bot_current_bet)
  let pot := state.pot
  let raise_amt := state.raise_amount
  let ev_call := win_prob * ((pot : Rat) + (to_call : Rat)) - (1 - win_prob) * (to_call : Rat)
  let ev_raise := win_prob * ((pot : Rat) + (to_call : Rat) + (raise_amt : Rat))
    - (1 - win_prob) * ((to_call : Rat) + (raise_amt : Rat))
  let total_money := state.bot_money + state.opp_money
  let bankroll_share : Rat :=
    if total_money > 0 then (state.bot_money : Rat) / (total_money : Rat) else 0.5
  let risk_penalty : Rat :=
    if pot > LARGE_POT_THRESHOLD ∧ win_prob < LOW_WIN_PROB_THRESHOLD then
      -RISK_PENALTY_LARGE_POT
    else 0
  WEIGHT_WIN_PROB * win_prob
    + WEIGHT_EXPECTED_VALUE * max ev_call ev_raise / ((pot : Rat) + 1)
    + WEIGHT_BANKROLL * bankroll_share
    + risk_penalty

/-- The maximizing loop of `minimax`, with the alpha update and beta cutoff
(`break`) of the source; `f` is the recursive call at `depth - 1`.  Both
plies of the source call `simulate_action(state, action)` with the default
`actor="bot"`. -/
def abMaxLoop (f : StB → Rat → Rat → Rat) (state : StB) :
    List Action → Rat → Rat → Rat → Rat
  | [], _, _, best => best
  | a :: rest, alpha, beta, best =>
    let s2 := simulate_action state a .bot
    let val := f s2 alpha beta
    let best' := max best val
    let alpha' := max alpha best'
    if beta ≤ alpha' then best' else abMaxLoop f state rest alpha' beta best'

/-- The minimizing loop of `minimax`, with the beta update and alpha
cutoff. -/
def abMinLoop (f : StB → Rat → Rat → Rat) (state : StB) :
    List Action → Rat → Rat → Rat → Rat
  | [], _, _, worst => worst
  | a :: rest, alpha, beta, worst =>
    let s2 := simulate_action state a .bot
    let val := f s2 alpha beta
    let worst' := min worst val
    let beta' := min beta worst'
    if beta' ≤ alpha then worst' else abMinLoop f state rest alpha beta' worst'

/-- `minimax` (bot.py lines 262-315): depth-limited alpha-beta search.
`evaluate_state` is called with its default `mc_sims = 120`.  The recursion
is on `depth : Nat`; the Python function never terminates for negative
depths (no branch lowers a negative depth to 0), so those calls have no
defined value to model. -/
def minimax (o : WinProbOracle) : Nat → StB → Rat → Rat → Bool → Rat
  | 0, state, _, _, _ => evaluate_state o state 120
  | depth + 1, state, alpha, beta, maximizing =>
    if state.terminal then evaluate_state o state 120
    else if maximizing then
      abMaxLoop (fun s2 a b => minimax o depth s2 a b false) state
        (get_possible_actions state) alpha beta (-1000000000)
    else
      abMinLoop (fun s2 a b => minimax o depth s2 a b true) state
        (get_possible_actions state) alpha beta 1000000000

/-- The `log` statistics dictionary (`BOT_LOG` shape, bot.py / models.py). -/
structure BotLog where
  decisions : Nat
  folds : Nat
  raises : Nat
  calls : Nat
  checks : Nat
  decision_times : List Rat
  win_probs : List Rat
  deriving DecidableEq, Repr

/-- `bot_decision` (bot.py lines 322-449).  Oracles: `o` for
`monte_carlo_win_prob`, `bluffRoll` for the `random.random()` of the bluff
zone, `elapsed` for `time.time() - start`.  Returns the chosen action and
the updated statistics dictionary. -/
def bot_decision (o : WinProbOracle) (bluffRoll elapsed : Rat)
    (state : StB) (depth : Nat) (mc_sims : Int) (log : BotLog) : Action × BotLog :=
  let sims := min MC_SIMS_MAX (max MC_SIMS_MIN
    (pyInt ((mc_sims : Rat) * (1 + MC_SIMS_DEPTH_MULTIPLIER * ((depth : Rat) - 1)))))
  let win_prob := o state.bot_hand state.community sims
  let log := { log with win_probs := log.win_probs ++ [win_prob] }
  let _to_call := max 0 (state.current_bet - state.bot_current_bet)
  let pot := state.pot
  let is_early_position := state.bot_is_small_blind
  let fold_threshold : Rat := 0.25
  let raise_threshold_no_bet : Rat := 0.50
  let raise_threshold_facing_bet : Rat := 0.55
  let fold_threshold :=
    if is_early_position then fold_threshold + 0.05 else fold_threshold - 0.03
  let raise_threshold_no_bet :=
    if is_early_position then raise_threshold_no_bet + 0.05 else raise_threshold_no_bet - 0.03
  let raise_threshold_facing_bet :=
    if is_early_position then raise_threshold_facing_bet + 0.05
    else raise_threshold_facing_bet - 0.03
  let action : Action :=
    if state.current_bet = 0 then
      if win_prob ≥ raise_threshold_no_bet then .raise else .check
    else if win_prob < fold_threshold then .fold
    else if win_prob ≥ raise_threshold_facing_bet then
      let call_state := simulate_action state .call .bot
      let call_value := minimax o (depth - 1) call_state (-1000000000) 1000000000 false
      let raise_state := simulate_action state .raise .bot
      let raise_value := minimax o (depth - 1) raise_state (-1000000000) 1000000000 false
      if raise_value > call_value - 0.05 then .raise else .call
    else if BLUFF_MIN_WIN_PROB ≤ win_prob ∧ win_prob < BLUFF_MAX_WIN_PROB then
      let bluff_freq := BLUFF_BASE_FREQUENCY
      let bluff_freq :=
        if ¬ is_early_position then bluff_freq + BLUFF_LATE_POSITION_BONUS else bluff_freq
      let bluff_freq :=
        if pot > BLUFF_LARGE_POT_SIZE then bluff_freq - BLUFF_LARGE_POT_PENALTY else bluff_freq
      if bluffRoll < bluff_freq then .raise else .call
    else
      .call
  let log := { log with decisions := log.decisions + 1,
                        decision_times := log.decision_times ++ [elapsed] }
  let log :=
    match action with
    | .fold => { log with folds := log.folds + 1 }
    | .call => { log with calls := log.calls + 1 }
    | .raise => { log with raises := log.raises + 1 }
    | .check => { log with checks := log.checks + 1 }
  (action, log)

end Bot

/-! ## Claim C8: `bot_decision` never folds when there is no bet -/

/-- C8: in every state with `current_bet == 0`, `bot_decision` returns
`check` or `raise` — never `fold` (and never `call`) — for every Monte Carlo
outcome, bluff roll, elapsed time, position, depth, simulation budget and
statistics log. -/
theorem bot_decision_no_fold_when_no_bet (o : Bot.WinProbOracle)
    (bluffRoll elapsed : Rat) (state : Bot.StB) (depth : Nat) (mc_sims : Int)
    (log : Bot.BotLog) (h : state.current_bet = 0) :
    (Bot.bot_decision o bluffRoll elapsed state depth mc_sims log).1 = Action.check ∨
    (Bot.bot_decision o bluffRoll elapsed state depth mc_sims log).1 = Action.raise := by
  unfold Bot.bot_decision
  simp [h]
  split_ifs <;> exact lt_or_ge _ _

/-- The empty statistics log, for witnesses. -/
def log0 : Bot.BotLog :=
  { decisions := 0, folds := 0, raises := 0, calls := 0, checks := 0,
    decision_times := [], win_probs := [] }

/-- A state with no outstanding bet, for the C8 witness. -/
def c8state : Bot.StB :=
  { bot_hand := [], community := [], pot := 10, current_bet := 0, bot_money := 95,
    opp_money := 95, bot_current_bet := 0, raise_amount := 5, terminal := false,
    bot_is_small_blind := false, dynamic_raise := none, winner := none }

/-- C8 witness: the theorem at a concrete no-bet state and oracle. -/
theorem bot_decision_no_fold_when_no_bet_witness :
    (Bot.bot_decision (fun _ _ _ => 1 / 2) 0 0 c8state 3 100 log0).1 = Action.check ∨
    (Bot.bot_decision (fun _ _ _ => 1 / 2) 0 0 c8state 3 100 log0).1 = Action.raise :=
  bot_decision_no_fold_when_no_bet (fun _ _ _ => 1 / 2) 0 0 c8state 3 100 log0 rfl

/-! ## Bet sizing (`src/bet_sizing.py`) and claim C9 -/

/-- Python 3 `round()` to an integer: round half to even. -/
def pyRound (q : Rat) : Int :=
  let f := ⌊q⌋
  let frac := q - (f : Rat)
  if frac < 1 / 2 then f
  else if 1 / 2 < frac then f + 1
  else if f % 2 = 0 then f else f + 1

/-- `calculate_bet_size` (bet_sizing.py lines 12-73).  `uniform` is the
oracle for `random.uniform(a, b)`; `community_cards` is accepted and unused,
exactly as in the source. -/
def calculate_bet_size (uniform : Rat → Rat → Rat)
    (win_prob pot current_bet bot_money : Rat) (community_cards : Nat) : Int :=
  let bet_pct :=
    if win_prob ≥ 0.85 then uniform 0.70 1.00
    else if win_prob ≥ 0.70 then uniform 0.60 0.75
    else if win_prob ≥ 0.55 then uniform 0.40 0.60
    else if win_prob ≥ 0.45 then uniform 0.25 0.40
    else uniform 0.40 0.60
  let bet_amount := pot * bet_pct
  let bet_amount := max 2 bet_amount
  let bet_amount := min bet_amount bot_money
  pyRound bet_amount

theorem le_pyRound {q : Rat} {a : Int} (h : (a : Rat) ≤ q) : a ≤ pyRound q := by
  have hf : a ≤ ⌊q⌋ := Int.le_floor.mpr h
  unfold pyRound
  simp only []
  split_ifs <;> omega

theorem pyRound_le {q : Rat} {m : Int} (h : q ≤ (m : Rat)) : pyRound q ≤ m := by
  have hfm : ⌊q⌋ ≤ m := by
    have h2 := Int.floor_le_floor h
    rw [Int.floor_intCast] at h2
    exact h2
  unfold pyRound
  simp only []
  split_ifs with h1 h2 h3
  · exact hfm
  · have h12 : (1 : Rat) / 2 ≤ q - (⌊q⌋ : Rat) := not_lt.mp h1
    have hlt : (⌊q⌋ : Rat) < (m : Rat) := by linarith
    have : ⌊q⌋ < m := by exact_mod_cast hlt
    omega
  · exact hfm
  · have h12 : (1 : Rat) / 2 ≤ q - (⌊q⌋ : Rat) := not_lt.mp h1
    have hlt : (⌊q⌋ : Rat) < (m : Rat) := by linarith
    have : ⌊q⌋ < m := by exact_mod_cast hlt
    omega

/-- C9 counterexample: the input win_prob = 0.9, pot = 10, stack = 3.5 is
valid as the claim states validity (win probability in `[0, 1]`, pot
non-negative, the stack at least one $2 minimum bet — the stack is a float
in the source and fractional stacks arise in the game from the `pot / 2`
tie split), yet with `random.uniform(0.70, 1.00)` answering the low end of
its band the function computes `round(min(max(2, 10 * 0.70), 3.5)) =
round(3.5) = 4`, which exceeds the stack 3.5: the "at most the bot's
stack" bound of the claim is false. -/
theorem calculate_bet_size_exceeds_fractional_stack :
    (0 : Rat) ≤ 0.9 ∧ (0.9 : Rat) ≤ 1 ∧ (0 : Rat) ≤ 10 ∧ (2 : Rat) ≤ 7 / 2 ∧
    calculate_bet_size (fun a _ => a) 0.9 10 5 (7 / 2) 0 = 4 ∧
    (7 : Rat) / 2 < ((4 : Int) : Rat) := by
  refine ⟨by norm_num, by norm_num, by norm_num, by norm_num, ?_, by norm_num⟩
  unfold calculate_bet_size pyRound
  norm_num [min_def, max_def]

/-- C9 (amended): for every valid input whose stack is a whole number of
currency units — win probability in `[0, 1]`, non-negative pot, an integral
stack of at least one minimum bet ($2, one small blind) — and every
`random.uniform` behaviour that stays in its requested band,
`calculate_bet_size` returns an integer amount between the $2 minimum bet
and the stack.  (For a fractional stack the final `round` can exceed the
stack by under one unit; see the counterexample.) -/
theorem calculate_bet_size_bounds (uniform : Rat → Rat → Rat)
    (win_prob pot current_bet : Rat) (m : Int) (community_cards : Nat)
    (_hu : ∀ a b : Rat, a ≤ b → a ≤ uniform a b ∧ uniform a b ≤ b)
    (_hw0 : 0 ≤ win_prob) (_hw1 : win_prob ≤ 1) (_hpot : 0 ≤ pot) (hm : 2 ≤ m) :
    2 ≤ calculate_bet_size uniform win_prob pot current_bet (m : Rat) community_cards ∧
    calculate_bet_size uniform win_prob pot current_bet (m : Rat) community_cards ≤ m := by
  unfold calculate_bet_size
  constructor
  · apply le_pyRound
    apply le_min
    · exact le_trans (by norm_num) (le_max_left 2 _)
    · exact_mod_cast hm
  · apply pyRound_le
    exact min_le_right _ _

/-- C9 witness: the theorem at a concrete input (`uniform` answering the
lower end of each band). -/
theorem calculate_bet_size_bounds_witness :
    2 ≤ calculate_bet_size (fun a _ => a) 0.9 10 5 ((50 : Int) : Rat) 0 ∧
    calculate_bet_size (fun a _ => a) 0.9 10 5 ((50 : Int) : Rat) 0 ≤ 50 :=
  calculate_bet_size_bounds (fun a _ => a) 0.9 10 5 50 0
    (fun a b hab => ⟨le_refl a, hab⟩) (by norm_num) (by norm_num) (by norm_num) (by norm_num)

/-! ## The Monte Carlo estimator of `src/bot.py` and claim C10 -/

namespace Bot

/-- `USE_PARALLEL_MONTE_CARLO` (bot.py line 55). -/
def USE_PARALLEL_MONTE_CARLO : Bool := true

/-- One iteration of the sequential loop of `monte_carlo_win_prob`:
`deckShuffled` is the shuffled remaining deck of this iteration, `ev` the
external `treys` `evaluator.evaluate(board, hand)` (lower is better).  The
opponent hand is the first two cards; community completion continues from
index 2 until 5 community cards (Python raises `IndexError` when the deck
runs dry, a crash state not modelled: `take` just stops). -/
def simScoreSeq (ev : List Nat → List Nat → Int) (deckShuffled : List Nat)
    (bot_hand community : List Nat) : Rat :=
  let opp_hand := deckShuffled.take 2
  let sim_comm := community ++ (deckShuffled.drop 2).take (5 - community.length)
  let bot_rank := ev sim_comm bot_hand
  let opp_rank := ev sim_comm opp_hand
  if bot_rank < opp_rank then 1 else if bot_rank = opp_rank then 0.5 else 0

/-- `monte_carlo_win_prob` (bot.py lines 62-124).  Oracles: `ev` for the
`treys` evaluator, `shuffles i` for the `random.shuffle` of iteration `i`,
`par` for `monte_carlo_parallel` (a thread pool over the same per-batch
loop; its scheduling is external, and no claim exercises it — for
`n_sim ≤ 0` the guard `n_sim >= 100` already fails).  `full_deck` stands for
`FULL_DECK.cards`. -/
def monte_carlo_win_prob (ev : List Nat → List Nat → Int)
    (shuffles : Nat → List Nat → List Nat)
    (par : List Nat → List Nat → Int → Rat)
    (full_deck bot_hand community : List Nat) (n_sim : Int) : Rat :=
  if USE_PARALLEL_MONTE_CARLO = true ∧ n_sim ≥ 100 then par bot_hand community n_sim
  else
    let used := bot_hand ++ community
    let deck_cards := full_deck.filter (· ∉ used)
    let n_sim := max 1 n_sim
    let wins := ((List.range n_sim.toNat).map
      (fun i => simScoreSeq ev (shuffles i deck_cards) bot_hand community)).sum
    wins / (n_sim : Rat)

end Bot

/-- C10: for every `n_sim ≤ 0` the public estimator takes the sequential
path (the parallel guard `n_sim >= 100` fails), clamps the simulation count
with `max(1, n_sim) = 1`, and returns the well-defined quotient of one
simulation's score by 1 — division by zero cannot occur. -/
theorem monte_carlo_win_prob_clamps (ev : List Nat → List Nat → Int)
    (shuffles : Nat → List Nat → List Nat) (par : List Nat → List Nat → Int → Rat)
    (full_deck bot_hand community : List Nat) (n_sim : Int) (h : n_sim ≤ 0) :
    Bot.monte_carlo_win_prob ev shuffles par full_deck bot_hand community n_sim
      = Bot.simScoreSeq ev
          (shuffles 0 (full_deck.filter (· ∉ bot_hand ++ community))) bot_hand community
    ∧ max 1 n_sim = 1 := by
  have hmax : max (1 : Int) n_sim = 1 := by omega
  refine ⟨?_, hmax⟩
  unfold Bot.monte_carlo_win_prob
  rw [if_neg (fun hc => absurd hc.2 (by omega))]
  have hr1 : List.range 1 = [0] := rfl
  simp [hmax, hr1]

/-- C10 witness: the theorem at a concrete oracle and empty hand. -/
theorem monte_carlo_win_prob_clamps_witness :
    Bot.monte_carlo_win_prob (fun _ _ => 0) (fun _ d => d) (fun _ _ _ => 0)
        [1, 2, 3] [] [] 0
      = Bot.simScoreSeq (fun _ _ => 0)
          ((fun (_ : Nat) (d : List Nat) => d) 0
            (([1, 2, 3] : List Nat).filter (· ∉ ([] : List Nat) ++ []))) [] []
    ∧ max 1 (0 : Int) = 1 :=
  monte_carlo_win_prob_clamps (fun _ _ => 0) (fun _ d => d) (fun _ _ _ => 0)
    [1, 2, 3] [] [] 0 (by norm_num)

/-! ## `PokerMinimaxBot.minimax` (poker_holdem.py lines 186-265) and claim C6 -/

namespace PokerMinimaxBot

/-- `remaining`: the full deck minus the known cards
(`[c for c in full_deck if c not in known]`). -/
def remainingDeck (bot_hand community : List Card) : List Card :=
  create_deck.filter (fun c => c ∉ bot_hand ++ community)

/-- Python `>` on two `best_hand_rank` results.  Both are tuples whenever
the compared hands have at least 5 cards; comparing `None` would raise a
`TypeError` in Python and is mapped to `false` here (unreachable from the
guarded sampling loop on a full deck). -/
def optRankGt (a b : Option (List Nat)) : Bool :=
  match a, b with
  | some x, some y => tupleLt y x
  | _, _ => false

/-- The sampling loop of `minimax`.  The first argument counts remaining
iterations, `i` is the iteration index, the accumulator holds
`(wins, ties)`; `shuffle i remaining` is the oracle for
`random.shuffle(deck_copy)` of iteration `i`.  Python pops from the end of
the shuffled list: the opponent's hole cards are the last two cards, and
community completion continues from the end; `extra_comm` is empty when the
needed cards exceed what is left, exactly as in the source.  The
`len(deck_copy) < 2` test breaks out of the whole loop. -/
def mmSamplesGo (shuffle : Nat → List Card → List Card)
    (remaining bot_hand community : List Card) :
    Nat → Nat → Nat × Nat → Nat × Nat
  | 0, _, acc => acc
  | n + 1, i, (wins, ties) =>
    let deck_copy := shuffle i remaining
    if deck_copy.length < 2 then (wins, ties)
    else
      let rev := deck_copy.reverse
      let opp_hole := rev.take 2
      let needed := 5 - community.length
      let rest := rev.drop 2
      let extra_comm := if needed ≤ rest.length then rest.take needed else []
      let full_comm := community ++ extra_comm
      let bot_rank := best_hand_rank (bot_hand ++ full_comm)
      let opp_rank := best_hand_rank (opp_hole ++ full_comm)
      if optRankGt bot_rank opp_rank then
        mmSamplesGo shuffle remaining bot_hand community n (i + 1) (wins + 1, ties)
      else if bot_rank = opp_rank then
        mmSamplesGo shuffle remaining bot_hand community n (i + 1) (wins, ties + 1)
      else
        mmSamplesGo shuffle remaining bot_hand community n (i + 1) (wins, ties)

/-- `PokerMinimaxBot.minimax`: the Monte Carlo EV decision of
poker_holdem.py.  `shuffle` is the oracle for `random.shuffle`; the printed
reasoning is dropped; `_depth` is accepted and unused, as in the source;
`samples` is the `self.samples` bound of the bot instance.
When fewer than 2 cards remain the function returns `('call', player_bet)`
before any sampling. -/
def minimax (shuffle : Nat → List Card → List Card)
    (bot_hand community : List Card)
    (player_bet pot bot_chips _player_chips _depth : Int) (samples : Int) : Action × Int :=
  let SAMPLES := max 50 (min samples 2000)
  let remaining := remainingDeck bot_hand community
  if remaining.length < 2 then (Action.call, player_bet)
  else
    let wt := mmSamplesGo shuffle remaining bot_hand community SAMPLES.toNat 0 (0, 0)
    let wins := wt.1
    let ties := wt.2
    let p_win : Rat := (wins : Rat) / (SAMPLES : Rat)
    let p_tie : Rat := (ties : Rat) / (SAMPLES : Rat)
    let ev_fold : Rat := 0
    let ev_call := p_win * ((pot : Rat) + (player_bet : Rat))
      + p_tie * (((pot : Rat) + (player_bet : Rat)) / 2)
      - (1 - p_win - p_tie) * (player_bet : Rat)
    let raise_amount : Int := min (max (player_bet * 2) (player_bet + 10)) bot_chips
    let ev_raise := p_win * ((pot : Rat) + (player_bet : Rat) + (raise_amount : Rat))
      + p_tie * (((pot : Rat) + (player_bet : Rat) + (raise_amount : Rat)) / 2)
      - (1 - p_win - p_tie) * (raise_amount : Rat)
    let b0 : Action × Int × Rat := (Action.fold, 0, ev_fold)
    let b1 :=
      if ev_call > b0.2.2 ∨ (ev_call = b0.2.2 ∧ b0.1 = Action.raise) then
        (Action.call, player_bet, ev_call)
      else b0
    let b2 := if ev_raise > b1.2.2 then (Action.raise, raise_amount, ev_raise) else b1
    (b2.1, b2.2.1)

end PokerMinimaxBot

/-- A bot hand and 49-card community leaving a single unknown card (the
function does not validate its inputs, so this oversized community is
accepted). -/
def c6hand : List Card := [('2', '♠'), ('2', '♥')]

/-- The 49 cards of `create_deck` after its first three. -/
def c6community : List Card := create_deck.drop 3

/-- C6 counterexample: with a single unknown card remaining,
`PokerMinimaxBot.minimax` returns the value `('call', player_bet)` — it does
not fail with an `InsufficientCards` (or any) error, refuting the claim as
stated. -/
theorem minimax_low_cards_returns_value :
    (PokerMinimaxBot.remainingDeck c6hand c6community).length = 1 ∧
    PokerMinimaxBot.minimax (fun _ d => d) c6hand c6community 40 100 500 500 1 200
      = (Action.call, 40) := by
  constructor
  · decide
  · decide

/-- C6 (amended): whenever fewer than 2 unknown cards remain,
`PokerMinimaxBot.minimax` (the caller of the Monte Carlo sampling in
poker_holdem.py) does not raise: it prints a message and returns the
fallback `('call', player_bet)`; `bot.py`'s `monte_carlo_win_prob` performs
no such check at all and would crash inside the `treys` evaluator. -/
theorem minimax_low_cards_defaults_call (shuffle : Nat → List Card → List Card)
    (bot_hand community : List Card)
    (player_bet pot bot_chips player_chips depth samples : Int)
    (h : (PokerMinimaxBot.remainingDeck bot_hand community).length < 2) :
    PokerMinimaxBot.minimax shuffle bot_hand community player_bet pot bot_chips
        player_chips depth samples
      = (Action.call, player_bet) := by
  unfold PokerMinimaxBot.minimax
  rw [if_pos h]

/-- C6 witness for the amended theorem, at the concrete 51-known-cards
input. -/
theorem minimax_low_cards_defaults_call_witness :
    PokerMinimaxBot.minimax (fun _ d => d) c6hand c6community 7 10 500 500 1 100
      = (Action.call, 7) :=
  minimax_low_cards_defaults_call (fun _ d => d) c6hand c6community 7 10 500 500 1 100
    (by decide)

end PokerBot
